import Mathlib

/-!
Shallow embedding of the simulation/statistics engine of
`src/components/ShadowFuturesExplorer.tsx` (shadow-futures-simulator).

JavaScript numbers are modelled as real numbers; the 32-bit unsigned
integer arithmetic of the PRNG is modelled on `Nat` with explicit
`% 2^32` reductions, which agrees with JavaScript's int32/uint32
coercions because xor, or and shifts only depend on the residue
mod `2^32`.  Parallel per-agent arrays are modelled as lists, and the
mutating per-step loop of `simulate` is modelled as explicit state
passing (`SimState`, `stepSim`, `simLoop`).
-/

namespace ShadowFutures

/-- One step of the mulberry32 PRNG: from the 32-bit state `t`, produce
the next state and the 32-bit output word.  The returned float is
`word / 2^32`.  Mirrors `mulberry32` (source lines 104-112). -/
def mulberryNext (t : Nat) : Nat × Nat :=
  let t1 := (t + 0x6d2b79f5) % 2 ^ 32
  let x1 := ((t1 ^^^ (t1 >>> 15)) * (1 ||| t1)) % 2 ^ 32
  let x2 := x1 ^^^ ((x1 + ((x1 ^^^ (x1 >>> 7)) * (61 ||| x1)) % 2 ^ 32) % 2 ^ 32)
  (t1, x2 ^^^ (x2 >>> 14))

/-- The float in `[0,1)` produced from a 32-bit PRNG output word:
`(... >>> 0) / 4294967296` in the source. -/
noncomputable def rngFloat (w : Nat) : ℝ := (w : ℝ) / 4294967296

/-- Source `clamp(x, a, b)` (line 114) (line 114): `max(a, min(b, x))`,
here on integers as used for bin indices. -/
def clampInt (x a b : ℤ) : ℤ := max a (min b x)

/-- Bin index of an effort value: `clamp(Math.floor(e * bins), 0, bins - 1)`
(source lines 145 and 298). -/
noncomputable def binOf (e : ℝ) (bins : Nat) : Nat :=
  (clampInt ⌊e * (bins : ℝ)⌋ 0 ((bins : ℤ) - 1)).toNat

/-- Source `gini(values)` (lines 118-127): sort ascending, return `0` on an
empty list or non-positive sum, otherwise `2·Σ(i+1)·v[i]/(n·sum) − (n+1)/n`.
The `for` loop accumulating `cum` is written as a `Finset.range` sum. -/
noncomputable def gini (values : List ℝ) : ℝ :=
  let n := values.length
  if n = 0 then 0 else
  let v := List.insertionSort (· ≤ ·) values
  let sum := v.sum
  if sum ≤ 0 then 0 else
  let cum := ∑ i in Finset.range n, ((i : ℝ) + 1) * v.getD i 0
  2 * cum / ((n : ℝ) * sum) - ((n : ℝ) + 1) / (n : ℝ)

/-- The zipped (bin index, rewarded flag) pairs that the counting loop of
`mutualInformationBinned` (source lines 143-148) tallies per agent. -/
noncomputable def binPairs (effort rewarded : List ℝ) (bins : Nat) : List (Nat × ℝ) :=
  (effort.zip rewarded).map (fun q => (binOf q.1 bins, q.2))

/-- Count `counts[b].n`: number of agents whose effort falls in bin `b`. -/
noncomputable def countN (pairs : List (Nat × ℝ)) (b : Nat) : Nat :=
  (pairs.filter (fun q => q.1 = b)).length

/-- Count `counts[b].r1`: number of agents in bin `b` with a truthy rewarded
flag (`rewarded[i] ? 1 : 0` — nonzero means truthy). -/
noncomputable def countR1 (pairs : List (Nat × ℝ)) (b : Nat) : Nat :=
  (pairs.filter (fun q => q.1 = b ∧ q.2 ≠ 0)).length

/-- Source `mutualInformationBinned({effort, rewarded, bins})` (lines
129-168): binned mutual information between effort and the ever-rewarded
flag, in bits.  The per-bin loop is a `Finset.range` sum; bins with
`counts[b].n = 0` are skipped, and each logarithmic term is guarded by
positivity of its conditional and marginal probability. -/
noncomputable def mutualInformationBinned (effort rewarded : List ℝ) (bins : Nat) : ℝ :=
  let n := effort.length
  if n = 0 then 0 else
  let pairs := binPairs effort rewarded bins
  let pR1 := ((rewarded.filter (fun x => x ≠ 0)).length : ℝ) / (n : ℝ)
  let pR0 := 1 - pR1
  let mi := ∑ b in Finset.range bins,
    (if countN pairs b = 0 then 0 else
      let nb := countN pairs b
      let pV := (nb : ℝ) / (n : ℝ)
      let pR1gV := (countR1 pairs b : ℝ) / (nb : ℝ)
      let pR0gV := 1 - pR1gV
      (if pR1gV > 0 ∧ pR1 > 0 then pV * pR1gV * Real.log (pR1gV / pR1) else 0) +
      (if pR0gV > 0 ∧ pR0 > 0 then pV * pR0gV * Real.log (pR0gV / pR0) else 0))
  mi / Real.log 2

/-- The cumulative-subtraction loop of `softmaxPick` (source lines 176-180):
`r -= weights[i]; if (r <= 0) return i;` with fallback `weights.length - 1`.
`i` is the index of the head of the remaining list, `len` the total length. -/
noncomputable def pickFrom : List ℝ → ℝ → Nat → Nat → Nat
  | [], _, _, len => len - 1
  | w :: rest, r, i, len => if r - w ≤ 0 then i else pickFrom rest (r - w) (i + 1) len

/-- Source `softmaxPick(weights, rng)` (lines 170-181).  The PRNG closure is
modelled by explicit state passing: the function returns the chosen index
together with the PRNG state, which advances only when the draw `rng()`
actually happens (i.e. when the total weight is positive). -/
noncomputable def softmaxPick (weights : List ℝ) (s : Nat) : Nat × Nat :=
  let total := weights.sum
  if total ≤ 0 then (0, s)
  else
    let d := mulberryNext s
    (pickFrom weights (rngFloat d.2 * total) 0 weights.length, d.1)

/-- Regime label and display color returned by `classifyRegime`. -/
structure Regime where
  name : String
  color : String
  deriving DecidableEq

/-- Source `classifyRegime(alpha, lambda, churn)` (lines 311-330). -/
noncomputable def classifyRegime (alpha lambda churn : ℝ) : Regime :=
  if alpha < 0.5 ∧ lambda > 0.8 ∧ churn > 0.005 then ⟨"Ordered", "#3b82f6"⟩
  else if 0.5 ≤ alpha ∧ alpha < 1.0 ∧ lambda > 0.6 ∧ churn < 0.01 then
    ⟨"Periodic", "#10b981"⟩
  else if 0.9 ≤ alpha ∧ alpha ≤ 1.2 ∧ 0.4 ≤ lambda ∧ lambda ≤ 0.8 ∧
      0.005 ≤ churn ∧ churn ≤ 0.015 then ⟨"Complex", "#f59e0b"⟩
  else if alpha > 1.2 ∧ lambda < 0.5 ∧ churn < 0.005 then ⟨"Chaotic", "#ef4444"⟩
  else ⟨"Transitional", "#8b5cf6"⟩

/-- The parameter record of `simulate` with the source's default values
(source lines 183-193). -/
structure Params where
  T : Nat := 400
  alpha : ℝ := 1.0
  lambda : ℝ := 0.0
  churn : ℝ := 0.0
  A0 : ℝ := 1.0
  bins : Nat := 10
  seed : Nat := 7
  incomeTaxRate : ℝ := 0.0
  wealthTaxRate : ℝ := 0.0

/-- One row of the per-step metric series (`SeriesDataPoint`). -/
structure SeriesDataPoint where
  t : Nat
  MI_bits : ℝ
  Gini : ℝ
  Top1 : ℝ
  Top10 : ℝ
  taxRevenue : ℝ
  postTaxGini : ℝ

instance : Inhabited SeriesDataPoint := ⟨⟨0, 0, 0, 0, 0, 0, 0⟩⟩

/-- One terminal top-rank bar (`BarDataPoint`). -/
structure BarDataPoint where
  rank : Nat
  share : ℝ

/-- One point of the terminal effort-vs-reward histogram
(`EffortCurvePoint`). -/
structure EffortCurvePoint where
  bin : String
  pRewarded : ℝ

/-- The value returned by `simulate` (`SimulationResult`). -/
structure SimulationResult where
  series : List SeriesDataPoint
  bars : List BarDataPoint
  effortCurve : List EffortCurvePoint
  totalTaxRevenue : ℝ

/-- The mutable state of the `simulate` loop: the PRNG state, the five
parallel per-agent arrays, the cumulative tax revenue, the series built
so far, and the loop counter `t`. -/
structure SimState where
  rng : Nat
  effort : List ℝ
  A : List ℝ
  gotAnyReward : List ℝ
  rewardCount : List Nat
  wealth : List ℝ
  totalTaxRevenue : ℝ
  series : List SeriesDataPoint
  t : Nat

/-- Update `A[i] += x` on a list: set index `i` to its current value plus `x`. -/
noncomputable def addAt (l : List ℝ) (i : Nat) (x : ℝ) : List ℝ :=
  l.set i (l.getD i 0 + x)

/-- Update `l[i] = x` on a list. -/
noncomputable def setAt (l : List ℝ) (i : Nat) (x : ℝ) : List ℝ := l.set i x

/-- Update `rewardCount[i] += 1` on a list of counters. -/
def incAt (l : List Nat) (i : Nat) : List Nat := l.set i (l.getD i 0 + 1)

/-- The churn phase (source lines 217-219): when `churn > 0`, multiply
every attachment by `1 − churn`. -/
noncomputable def churnPhase (churn : ℝ) (A : List ℝ) : List ℝ :=
  if churn > 0 then A.map (fun a => a * (1 - churn)) else A

/-- Per-agent attachment update of the wealth-tax loop (source lines
223-227): `A[i] -= A[i] * wealthTaxRate`. -/
noncomputable def wealthTaxAttachment (w : ℝ) (A : List ℝ) : List ℝ :=
  A.map (fun a => a - a * w)

/-- Per-agent wealth update of the wealth-tax loop (source lines
229-231): `wealth[i] -= wealth[i] * wealthTaxRate`. -/
noncomputable def wealthTaxWealth (w : ℝ) (W : List ℝ) : List ℝ :=
  W.map (fun x => x - x * w)

/-- Total revenue collected by the wealth-tax loop: the sum of the
per-agent attachment taxes `A[i] * wealthTaxRate` — the wealth-side tax
is never added (source line 232: already counted via attachment). -/
noncomputable def wealthTaxCollected (w : ℝ) (A : List ℝ) : ℝ :=
  (A.map (fun a => a * w)).sum

/-- The wealth-tax phase (source lines 222-234), guarded by
`wealthTaxRate > 0`: returns the updated attachments, updated wealth
ledger and updated cumulative revenue. -/
noncomputable def wealthTaxPhase (w : ℝ) (A W : List ℝ) (rev : ℝ) :
    List ℝ × List ℝ × ℝ :=
  if w > 0 then (wealthTaxAttachment w A, wealthTaxWealth w W, rev + wealthTaxCollected w A)
  else (A, W, rev)

/-- One iteration of the `for` loop of `simulate` (source lines 207-283), in
source order: entry, churn decay, wealth tax, weight computation, winner
selection, reward and income tax, metrics. -/
noncomputable def stepSim (p : Params) (s : SimState) : SimState :=
  let s1 := (mulberryNext s.rng).1
  let v := rngFloat (mulberryNext s.rng).2
  let effort := s.effort ++ [v]
  let A0s := s.A ++ [p.A0]
  let gotAny := s.gotAnyReward ++ [(0 : ℝ)]
  let rc := s.rewardCount ++ [0]
  let W0 := s.wealth ++ [(0 : ℝ)]
  let A1 := churnPhase p.churn A0s
  let wtp := wealthTaxPhase p.wealthTaxRate A1 W0 s.totalTaxRevenue
  let A2 := wtp.1
  let W1 := wtp.2.1
  let rev1 := wtp.2.2
  let meanV := effort.sum / (effort.length : ℝ)
  let weights := (A2.zip effort).map
    (fun q => Real.rpow (max q.1 1e-9) p.alpha * Real.exp (p.lambda * (q.2 - meanV)))
  let pick := softmaxPick weights s1
  let winner := pick.1
  let s2 := pick.2
  let afterTaxReward := 1 * (1 - p.incomeTaxRate)
  let rev2 := rev1 + 1 * p.incomeTaxRate
  let A3 := addAt A2 winner afterTaxReward
  let W2 := addAt W1 winner afterTaxReward
  let gotAny2 := setAt gotAny winner 1
  let rc2 := incAt rc winner
  let totalRewards := rc2.sum
  let shares := rc2.map (fun x => if 0 < totalRewards then (x : ℝ) / (totalRewards : ℝ) else 0)
  let sharesDesc := List.insertionSort (fun a b : ℝ => b ≤ a) shares
  let top1 := sharesDesc.headD 0
  let top10 := (sharesDesc.take (max 1 (Nat.floor ((shares.length : ℝ) * 0.1)))).sum
  let mi := mutualInformationBinned effort gotAny2 p.bins
  let g := gini (rc2.map (fun x => (x : ℝ)))
  let postTaxG := if 0 < W2.length ∧ 0 < W2.sum then gini W2 else g
  { rng := s2
    effort := effort
    A := A3
    gotAnyReward := gotAny2
    rewardCount := rc2
    wealth := W2
    totalTaxRevenue := rev2
    series := s.series ++ [⟨s.t + 1, mi, g, top1, top10, rev2, postTaxG⟩]
    t := s.t + 1 }

/-- The state before the first loop iteration: `mulberry32(seed)` applies
`seed >>> 0`, all arrays empty, revenue `0`. -/
def initState (seed : Nat) : SimState :=
  ⟨seed % 2 ^ 32, [], [], [], [], [], 0, [], 0⟩

/-- Runs `n` iterations of the `simulate` loop. -/
noncomputable def simLoop (p : Params) : Nat → SimState → SimState
  | 0, s => s
  | n + 1, s => simLoop p n (stepSim p s)

/-- The loop state after step `t` of `simulate p` (1-indexed steps). -/
noncomputable def stateAfter (p : Params) (t : Nat) : SimState :=
  simLoop p t (initState p.seed)

/-- Source `simulate(params)` (lines 183-308): run the loop for `T`
steps, then build the terminal top-20 bars and the effort histogram. -/
noncomputable def simulate (p : Params) : SimulationResult :=
  let sFin := simLoop p p.T (initState p.seed)
  let totalRewards := sFin.rewardCount.sum
  let finalShares := sFin.rewardCount.map
    (fun x => if 0 < totalRewards then (x : ℝ) / (totalRewards : ℝ) else 0)
  let sorted := (List.insertionSort (fun a b : Nat × ℝ => b.2 ≤ a.2) finalShares.enum).take 20
  let bars := sorted.enum.map (fun q => BarDataPoint.mk (q.1 + 1) q.2.2)
  let pairsE := binPairs sFin.effort sFin.gotAnyReward p.bins
  let effortCurve := (List.range p.bins).map (fun b =>
    EffortCurvePoint.mk (toString (b + 1))
      (if countN pairsE b ≠ 0 then (countR1 pairsE b : ℝ) / (countN pairsE b : ℝ) else 0))
  ⟨sFin.series, bars, effortCurve, sFin.totalTaxRevenue⟩

/-- The tax kind swept by `generateTaxRevenueCurve`. -/
inductive TaxKind
  | income
  | wealth
  deriving DecidableEq

/-- One point of the tax-revenue curve (`TaxRevenuePoint`). -/
structure TaxRevenuePoint where
  rate : ℝ
  revenue : ℝ
  postTaxGini : ℝ

instance : Inhabited TaxRevenuePoint := ⟨⟨0, 0, 0⟩⟩

/-- The parameter record that `generateTaxRevenueCurve` (source lines
369-411) passes to `simulate` at rate point `i`: horizon
`curveT = min(T, 300)`, `bins = 10`, `seed = 42`, defaults elsewhere,
and the selected tax rate set to `i * (maxRate / steps)`. -/
noncomputable def curveParams (alpha lambda churn : ℝ) (T : Nat) (taxType : TaxKind)
    (maxRate : ℝ) (steps : Nat) (i : Nat) : Params :=
  let rateStep := maxRate / (steps : ℝ)
  let rate := (i : ℝ) * rateStep
  let curveT := min T 300
  match taxType with
  | TaxKind.income =>
    { T := curveT, alpha := alpha, lambda := lambda, churn := churn,
      bins := 10, seed := 42, incomeTaxRate := rate }
  | TaxKind.wealth =>
    { T := curveT, alpha := alpha, lambda := lambda, churn := churn,
      bins := 10, seed := 42, wealthTaxRate := rate }

/-- The curve point built from one simulation result (source lines
400-408): rate as a percentage, `totalTaxRevenue || 0` (the revenue field
is always present here, and `0 || 0` is `0`, so the alternation is the
identity), and the terminal reward-count `Gini` of the series. -/
noncomputable def taxPointOf (r : SimulationResult) (rate : ℝ) : TaxRevenuePoint :=
  ⟨rate * 100, r.totalTaxRevenue, (r.series.getLastD default).Gini⟩

/-- Source `generateTaxRevenueCurve` (lines 369-411): one simulation per rate point
`i = 0 .. steps`. -/
noncomputable def generateTaxRevenueCurve (alpha lambda churn : ℝ) (T : Nat)
    (taxType : TaxKind) (maxRate : ℝ) (steps : Nat) : List TaxRevenuePoint :=
  (List.range (steps + 1)).map (fun i =>
    taxPointOf (simulate (curveParams alpha lambda churn T taxType maxRate steps i))
      ((i : ℝ) * (maxRate / (steps : ℝ))))

open Classical in
/-- First-match lookup over a priority-ordered list of (region predicate,
regime) pairs, with a default regime when none matches. -/
noncomputable def firstMatch : List (Prop × Regime) → Regime → Regime
  | [], d => d
  | q :: rest, d => if q.1 then q.2 else firstMatch rest d

/-- Modelled from the spec's words (§4.4): the classifier as a first-match
scan of the five regions in the spec's priority order, defaulting to
Transitional.  Written independently of `classifyRegime` to compare the
two. -/
noncomputable def specClassify (alpha lambda churn : ℝ) : Regime :=
  firstMatch
    [(alpha < 0.5 ∧ lambda > 0.8 ∧ churn > 0.005, ⟨"Ordered", "#3b82f6"⟩),
     (0.5 ≤ alpha ∧ alpha < 1.0 ∧ lambda > 0.6 ∧ churn < 0.01, ⟨"Periodic", "#10b981"⟩),
     (0.9 ≤ alpha ∧ alpha ≤ 1.2 ∧ 0.4 ≤ lambda ∧ lambda ≤ 0.8 ∧
        0.005 ≤ churn ∧ churn ≤ 0.015, ⟨"Complex", "#f59e0b"⟩),
     (alpha > 1.2 ∧ lambda < 0.5 ∧ churn < 0.005, ⟨"Chaotic", "#ef4444"⟩)]
    ⟨"Transitional", "#8b5cf6"⟩

/-! ## Helper lemmas -/

theorem pickFrom_cases (ws : List ℝ) : ∀ (r : ℝ) (i len : Nat),
    pickFrom ws r i len = len - 1 ∨
      (i ≤ pickFrom ws r i len ∧ pickFrom ws r i len < i + ws.length) := by
  induction ws with
  | nil => intro r i len; left; rfl
  | cons w rest ih =>
    intro r i len
    by_cases h : r - w ≤ 0
    · right
      simp only [pickFrom, if_pos h]
      exact ⟨le_refl i, by simp [Nat.lt_add_of_pos_right]⟩
    · rcases ih (r - w) (i + 1) len with h1 | h1
      · left; simpa only [pickFrom, if_neg h] using h1
      · right
        simp only [pickFrom, if_neg h]
        refine ⟨le_trans (Nat.le_succ i) h1.1, ?_⟩
        have := h1.2
        simp only [List.length_cons]
        omega

theorem softmaxPick_lt (ws : List ℝ) (s : Nat) (h : ws ≠ []) :
    (softmaxPick ws s).1 < ws.length := by
  have hlen : 0 < ws.length := List.length_pos.mpr h
  unfold softmaxPick
  by_cases ht : ws.sum ≤ 0
  · simpa [ht] using hlen
  · simp only [if_neg ht]
    rcases pickFrom_cases ws (rngFloat (mulberryNext s).2 * ws.sum) 0 ws.length with h1 | h1
    · simpa [h1] using Nat.sub_lt hlen Nat.one_pos
    · simpa using h1.2

theorem softmaxPick_total_nonpos (ws : List ℝ) (s : Nat) (h : ws.sum ≤ 0) :
    (softmaxPick ws s).1 = 0 := by
  simp [softmaxPick, h]

/-! ## Claims -/

/-- Claim C1: for every parameter record, two independent calls to
`simulate` with the same arguments produce identical outputs: the same
per-step series, the same bars, the same effort curve and the same total
tax revenue.  In the embedding `simulate` is a pure function of its
parameter record (the PRNG state is part of the computation, seeded only
from `params.seed`), so both runs coincide. -/
theorem simulate_deterministic (p : Params) (r1 r2 : SimulationResult)
    (h1 : r1 = simulate p) (h2 : r2 = simulate p) :
    r1.series = r2.series ∧ r1.bars = r2.bars ∧
      r1.effortCurve = r2.effortCurve ∧ r1.totalTaxRevenue = r2.totalTaxRevenue := by
  subst h1; subst h2; exact ⟨rfl, rfl, rfl, rfl⟩

/-- Witness for C1 at the concrete record with `T = 0`. -/
theorem simulate_deterministic_witness :
    (simulate { T := 0 }).series = (simulate { T := 0 }).series ∧
      (simulate { T := 0 }).bars = (simulate { T := 0 }).bars ∧
      (simulate { T := 0 }).effortCurve = (simulate { T := 0 }).effortCurve ∧
      (simulate { T := 0 }).totalTaxRevenue = (simulate { T := 0 }).totalTaxRevenue :=
  simulate_deterministic { T := 0 } _ _ rfl rfl

/-- Claim C8: `classifyRegime` agrees everywhere with the spec's
five-region priority-ordered first-match classification (Ordered,
Periodic, Complex, Chaotic, else Transitional), each region carrying its
fixed color. -/
theorem classifyRegime_eq_specClassify (alpha lambda churn : ℝ) :
    classifyRegime alpha lambda churn = specClassify alpha lambda churn := by
  simp only [classifyRegime, specClassify, firstMatch]

/-- Claim C9: winner selection never raises: a non-positive total weight
deterministically yields index `0`, and on a non-empty weights list the
chosen index is a valid position. -/
theorem softmaxPick_safe (ws : List ℝ) (s : Nat) :
    (ws.sum ≤ 0 → (softmaxPick ws s).1 = 0) ∧
      (ws ≠ [] → (softmaxPick ws s).1 < ws.length) :=
  ⟨softmaxPick_total_nonpos ws s, softmaxPick_lt ws s⟩

/-- Witness for C9 at the weights list `[1]` and PRNG state `0`. -/
theorem softmaxPick_safe_witness :
    (softmaxPick [(1 : ℝ)] 0).1 < [(1 : ℝ)].length ∧ (softmaxPick ([] : List ℝ) 0).1 = 0 :=
  ⟨(softmaxPick_safe [(1 : ℝ)] 0).2 (by simp),
   (softmaxPick_safe ([] : List ℝ) 0).1 (by simp)⟩

/-- Claim C5: in the wealth-tax step (executed when `wealthTaxRate > 0`),
each agent's attachment drops by exactly `attachment × rate`, each
agent's wealth drops by exactly `wealth × rate`, and the cumulative
revenue increases by exactly the sum of the attachment taxes alone — the
wealth-side taxes are never added to revenue. -/
theorem wealthTax_accounting (w : ℝ) (A W : List ℝ) (rev : ℝ) (i : Nat)
    (hw : w > 0) (hiA : i < A.length) (hiW : i < W.length) :
    (wealthTaxPhase w A W rev).1.getD i 0 = A.getD i 0 - A.getD i 0 * w ∧
      (wealthTaxPhase w A W rev).2.1.getD i 0 = W.getD i 0 - W.getD i 0 * w ∧
      (wealthTaxPhase w A W rev).2.2 = rev + (A.map (fun a => a * w)).sum := by
  refine ⟨?_, ?_, by simp [wealthTaxPhase, hw, wealthTaxCollected]⟩
  · simp [wealthTaxPhase, hw, wealthTaxAttachment, List.getD_eq_getElem?_getD,
      List.getElem?_map, List.getElem?_eq_getElem hiA]
  · simp [wealthTaxPhase, hw, wealthTaxWealth, List.getD_eq_getElem?_getD,
      List.getElem?_map, List.getElem?_eq_getElem hiW]

/-- Witness for C5 at rate `1`, attachments `[2]`, wealth `[3]`,
revenue `0`, agent `0`. -/
theorem wealthTax_accounting_witness :
    (wealthTaxPhase 1 [(2 : ℝ)] [(3 : ℝ)] 0).1.getD 0 0 =
        [(2 : ℝ)].getD 0 0 - [(2 : ℝ)].getD 0 0 * 1 ∧
      (wealthTaxPhase 1 [(2 : ℝ)] [(3 : ℝ)] 0).2.1.getD 0 0 =
        [(3 : ℝ)].getD 0 0 - [(3 : ℝ)].getD 0 0 * 1 ∧
      (wealthTaxPhase 1 [(2 : ℝ)] [(3 : ℝ)] 0).2.2 =
        0 + ([(2 : ℝ)].map (fun a => a * 1)).sum :=
  wealthTax_accounting 1 [(2 : ℝ)] [(3 : ℝ)] 0 0 (by norm_num) (by simp) (by simp)

theorem sum_incAt (l : List Nat) (i : Nat) (h : i < l.length) :
    (incAt l i).sum = l.sum + 1 := by
  induction l generalizing i with
  | nil => simp at h
  | cons x xs ih =>
    cases i with
    | zero => simp [incAt]; omega
    | succ j =>
      have hj : j < xs.length := by simpa using h
      simp only [incAt, List.set_cons_succ, List.getD_cons_succ, List.sum_cons]
      have := ih j hj
      simp only [incAt] at this
      omega

theorem length_churnPhase (c : ℝ) (A : List ℝ) :
    (churnPhase c A).length = A.length := by
  unfold churnPhase; split <;> simp

theorem length_wealthTaxPhase_A (w : ℝ) (A W : List ℝ) (rev : ℝ) :
    (wealthTaxPhase w A W rev).1.length = A.length := by
  unfold wealthTaxPhase; split <;> simp [wealthTaxAttachment]

theorem length_wealthTaxPhase_W (w : ℝ) (A W : List ℝ) (rev : ℝ) :
    (wealthTaxPhase w A W rev).2.1.length = W.length := by
  unfold wealthTaxPhase; split <;> simp [wealthTaxWealth]

theorem simLoop_succ (p : Params) (n : Nat) (s : SimState) :
    simLoop p (n + 1) s = stepSim p (simLoop p n s) := by
  induction n generalizing s with
  | zero => rfl
  | succ m ih => exact ih (stepSim p s)

/-- The per-step bookkeeping invariant: after `t` completed steps all five
agent arrays have length `t` and the reward counts sum to `t`. -/
theorem wf_stateAfter (p : Params) (t : Nat) :
    (stateAfter p t).effort.length = t ∧ (stateAfter p t).A.length = t ∧
      (stateAfter p t).gotAnyReward.length = t ∧
      (stateAfter p t).rewardCount.length = t ∧
      (stateAfter p t).wealth.length = t ∧ (stateAfter p t).rewardCount.sum = t := by
  induction t with
  | zero => simp [stateAfter, simLoop, initState]
  | succ n ih =>
    obtain ⟨he, hA, hg, hr, hw, hsum⟩ := ih
    have hstep : stateAfter p (n + 1) = stepSim p (stateAfter p n) := simLoop_succ p n _
    set s := stateAfter p n with hs
    rw [hstep]
    simp only [stepSim]
    set winner := (softmaxPick
      (((wealthTaxPhase p.wealthTaxRate (churnPhase p.churn (s.A ++ [p.A0]))
          (s.wealth ++ [(0 : ℝ)]) s.totalTaxRevenue).1.zip (s.effort ++ [rngFloat (mulberryNext s.rng).2])).map
        (fun q => Real.rpow (max q.1 1e-9) p.alpha *
          Real.exp (p.lambda * (q.2 - (s.effort ++ [rngFloat (mulberryNext s.rng).2]).sum /
            ((s.effort ++ [rngFloat (mulberryNext s.rng).2]).length : ℝ)))))
      (mulberryNext s.rng).1).1 with hwinner
    have hwlt : winner < n + 1 := by
      rw [hwinner]
      have hlen : (((wealthTaxPhase p.wealthTaxRate (churnPhase p.churn (s.A ++ [p.A0]))
          (s.wealth ++ [(0 : ℝ)]) s.totalTaxRevenue).1.zip
            (s.effort ++ [rngFloat (mulberryNext s.rng).2])).map
          (fun q => Real.rpow (max q.1 1e-9) p.alpha *
            Real.exp (p.lambda * (q.2 - (s.effort ++ [rngFloat (mulberryNext s.rng).2]).sum /
              ((s.effort ++ [rngFloat (mulberryNext s.rng).2]).length : ℝ))))).length = n + 1 := by
        simp [List.length_zip, length_wealthTaxPhase_A, length_churnPhase, hA, he]
      rw [← hlen]
      exact softmaxPick_lt _ _ (by
        intro hnil
        rw [hnil] at hlen
        simp at hlen)
    refine ⟨by simp [he], ?_, ?_, ?_, ?_, ?_⟩
    · simp [addAt, length_wealthTaxPhase_A, length_churnPhase, hA]
    · simp [setAt, hg]
    · simp [incAt, hr]
    · simp [addAt, length_wealthTaxPhase_W, hw]
    · have hlen0 : winner < (s.rewardCount ++ [0]).length := by simp [hr]; omega
      rw [sum_incAt _ _ hlen0]
      simp [hsum]

/-- Claim C2: for every parameter record with horizon `T ≥ 1` and every
step index `1 ≤ t ≤ T`, after step `t` of `simulate` completes the sum
of `rewardCount` over all agents entered so far equals `t`: exactly one
unit reward is granted per step. -/
theorem rewardCount_sum_eq_steps (p : Params) (t : Nat)
    (hT : 1 ≤ p.T) (h1 : 1 ≤ t) (ht : t ≤ p.T) :
    (stateAfter p t).rewardCount.sum = t :=
  (wf_stateAfter p t).2.2.2.2.2

/-- Witness for C2 at the all-default parameter record (`T = 400`) and
step `t = 1`. -/
theorem rewardCount_sum_eq_steps_witness :
    (stateAfter { } 1).rewardCount.sum = 1 :=
  rewardCount_sum_eq_steps { } 1 (by norm_num) (by norm_num) (by norm_num)

theorem getD_nonneg {l : List ℝ} (h : ∀ x ∈ l, 0 ≤ x) (i : Nat) : 0 ≤ l.getD i 0 := by
  rcases lt_or_le i l.length with hi | hi
  · rw [List.getD_eq_getElem l 0 hi]
    exact h _ (List.getElem_mem hi)
  · rw [List.getD_eq_default l 0 hi]

theorem addAt_nonneg {l : List ℝ} {v : ℝ} (h : ∀ x ∈ l, 0 ≤ x) (hv : 0 ≤ v) (i : Nat) :
    ∀ x ∈ addAt l i v, 0 ≤ x := by
  intro x hx
  rcases List.mem_or_eq_of_mem_set hx with hx' | hx'
  · exact h _ hx'
  · exact hx' ▸ add_nonneg (getD_nonneg h i) hv

theorem setAt_nonneg {l : List ℝ} {v : ℝ} (h : ∀ x ∈ l, 0 ≤ x) (hv : 0 ≤ v) (i : Nat) :
    ∀ x ∈ setAt l i v, 0 ≤ x := by
  intro x hx
  rcases List.mem_or_eq_of_mem_set hx with hx' | hx'
  · exact h _ hx'
  · exact hx' ▸ hv

theorem churnPhase_nonneg {c : ℝ} {A : List ℝ} (hc : c ≤ 1) (h : ∀ a ∈ A, 0 ≤ a) :
    ∀ a ∈ churnPhase c A, 0 ≤ a := by
  unfold churnPhase
  split
  · intro a ha
    obtain ⟨b, hb, rfl⟩ := List.mem_map.mp ha
    exact mul_nonneg (h b hb) (by linarith)
  · exact h

theorem wealthTaxPhase_A_nonneg {w : ℝ} {A W : List ℝ} {rev : ℝ}
    (hw1 : w ≤ 1) (h : ∀ a ∈ A, 0 ≤ a) :
    ∀ a ∈ (wealthTaxPhase w A W rev).1, 0 ≤ a := by
  unfold wealthTaxPhase
  split
  · intro a ha
    obtain ⟨b, hb, rfl⟩ := List.mem_map.mp ha
    have : b - b * w = b * (1 - w) := by ring
    rw [this]
    exact mul_nonneg (h b hb) (by linarith)
  · exact h

theorem wealthTaxPhase_W_nonneg {w : ℝ} {A W : List ℝ} {rev : ℝ}
    (hw1 : w ≤ 1) (h : ∀ x ∈ W, 0 ≤ x) :
    ∀ x ∈ (wealthTaxPhase w A W rev).2.1, 0 ≤ x := by
  unfold wealthTaxPhase
  split
  · intro x hx
    obtain ⟨b, hb, rfl⟩ := List.mem_map.mp hx
    have : b - b * w = b * (1 - w) := by ring
    rw [this]
    exact mul_nonneg (h b hb) (by linarith)
  · exact h

theorem wealthTaxPhase_rev_nonneg {w : ℝ} {A W : List ℝ} {rev : ℝ}
    (hw0 : 0 ≤ w) (h : ∀ a ∈ A, 0 ≤ a) (hrev : 0 ≤ rev) :
    0 ≤ (wealthTaxPhase w A W rev).2.2 := by
  unfold wealthTaxPhase
  split
  · refine add_nonneg hrev (List.sum_nonneg ?_)
    intro x hx
    obtain ⟨b, hb, rfl⟩ := List.mem_map.mp hx
    exact mul_nonneg (h b hb) hw0
  · exact hrev

/-- The non-negativity invariant for the amended C4: with valid churn,
tax rates and a non-negative initial attachment, every attachment, every
wealth entry and the cumulative revenue stay non-negative at every step. -/
theorem nonneg_stateAfter (p : Params) (hc1 : p.churn < 1)
    (hi0 : 0 ≤ p.incomeTaxRate) (hi1 : p.incomeTaxRate ≤ 1)
    (hw0 : 0 ≤ p.wealthTaxRate) (hw1 : p.wealthTaxRate ≤ 1)
    (hA0 : 0 ≤ p.A0) (t : Nat) :
    (∀ a ∈ (stateAfter p t).A, 0 ≤ a) ∧ (∀ x ∈ (stateAfter p t).wealth, 0 ≤ x) ∧
      0 ≤ (stateAfter p t).totalTaxRevenue := by
  induction t with
  | zero => simp [stateAfter, simLoop, initState]
  | succ n ih =>
    obtain ⟨hA, hW, hrev⟩ := ih
    rw [stateAfter, simLoop_succ p n _, ← stateAfter]
    set s := stateAfter p n with hs
    simp only [stepSim]
    have hentryA : ∀ a ∈ s.A ++ [p.A0], 0 ≤ a := by
      intro a ha
      rcases List.mem_append.mp ha with h' | h'
      · exact hA a h'
      · simpa using (List.mem_singleton.mp h') ▸ hA0
    have hentryW : ∀ x ∈ s.wealth ++ [(0 : ℝ)], 0 ≤ x := by
      intro x hx
      rcases List.mem_append.mp hx with h' | h'
      · exact hW x h'
      · simp [List.mem_singleton.mp h']
    have hA1 := churnPhase_nonneg (le_of_lt hc1) hentryA
    have hA2 := @wealthTaxPhase_A_nonneg p.wealthTaxRate
      (churnPhase p.churn (s.A ++ [p.A0])) (s.wealth ++ [(0 : ℝ)]) s.totalTaxRevenue hw1 hA1
    have hW1 := @wealthTaxPhase_W_nonneg p.wealthTaxRate
      (churnPhase p.churn (s.A ++ [p.A0])) (s.wealth ++ [(0 : ℝ)]) s.totalTaxRevenue hw1 hentryW
    have hrev1 := @wealthTaxPhase_rev_nonneg p.wealthTaxRate
      (churnPhase p.churn (s.A ++ [p.A0])) (s.wealth ++ [(0 : ℝ)]) s.totalTaxRevenue hw0 hA1 hrev
    have hafter : (0 : ℝ) ≤ 1 * (1 - p.incomeTaxRate) := by nlinarith
    refine ⟨addAt_nonneg hA2 hafter _, addAt_nonneg hW1 hafter _, ?_⟩
    have : (0 : ℝ) ≤ 1 * p.incomeTaxRate := by linarith
    linarith

/-- Amended Claim C4: for every parameter record with
`churn ∈ (-∞,1)`-side bound `churn < 1`, `incomeTaxRate ∈ [0,1]`,
`wealthTaxRate ∈ [0,1]` and additionally a non-negative initial
attachment `A0 ≥ 0` (the spec's §4.2 precondition `initialAttachment > 0`
relaxed to `≥ 0`), at every step every agent's attachment is `≥ 0`,
every agent's wealth is `≥ 0`, and the cumulative tax revenue is `≥ 0`.
Without the `A0` bound the claim fails (see the counterexample). -/
theorem simulate_nonneg (p : Params) (hc0 : 0 ≤ p.churn) (hc1 : p.churn < 1)
    (hi0 : 0 ≤ p.incomeTaxRate) (hi1 : p.incomeTaxRate ≤ 1)
    (hw0 : 0 ≤ p.wealthTaxRate) (hw1 : p.wealthTaxRate ≤ 1)
    (hA0 : 0 ≤ p.A0) (t : Nat) :
    (∀ a ∈ (stateAfter p t).A, 0 ≤ a) ∧ (∀ x ∈ (stateAfter p t).wealth, 0 ≤ x) ∧
      0 ≤ (stateAfter p t).totalTaxRevenue :=
  nonneg_stateAfter p hc1 hi0 hi1 hw0 hw1 hA0 t

/-- Witness for the amended C4 at the all-default parameter record and
step `t = 2`. -/
theorem simulate_nonneg_witness :
    (∀ a ∈ (stateAfter { } 2).A, 0 ≤ a) ∧ (∀ x ∈ (stateAfter { } 2).wealth, 0 ≤ x) ∧
      0 ≤ (stateAfter { } 2).totalTaxRevenue :=
  simulate_nonneg { } (by norm_num) (by norm_num) (by norm_num) (by norm_num)
    (by norm_num) (by norm_num) (by norm_num) 2

theorem sum_range_getD (l : List ℝ) :
    ∑ i in Finset.range l.length, l.getD i 0 = l.sum := by
  induction l with
  | nil => simp
  | cons x xs ih =>
    rw [List.length_cons, Finset.sum_range_succ']
    simp only [List.getD_cons_succ, List.getD_cons_zero, List.sum_cons, ih]
    ring

theorem sorted_getD_le {v : List ℝ} (hs : List.Sorted (· ≤ ·) v) {a b : ℕ}
    (hab : a ≤ b) (hb : b < v.length) : v.getD a 0 ≤ v.getD b 0 := by
  have ha : a < v.length := lt_of_le_of_lt hab hb
  rw [List.getD_eq_getElem v 0 ha, List.getD_eq_getElem v 0 hb]
  exact List.Sorted.rel_get_of_le hs (a := ⟨a, ha⟩) (b := ⟨b, hb⟩) hab

theorem cum_le_n_mul_sum (v : List ℝ) (hnn : ∀ x ∈ v, 0 ≤ x) :
    ∑ i in Finset.range v.length, ((i : ℝ) + 1) * v.getD i 0 ≤
      (v.length : ℝ) * v.sum := by
  rw [← sum_range_getD v, Finset.mul_sum]
  refine Finset.sum_le_sum ?_
  intro i hi
  have hi' : i < v.length := Finset.mem_range.mp hi
  have hv : 0 ≤ v.getD i 0 := getD_nonneg hnn i
  have : (i : ℝ) + 1 ≤ (v.length : ℝ) := by exact_mod_cast hi'
  nlinarith

theorem succ_mul_sum_le_two_cum (v : List ℝ) (hs : List.Sorted (· ≤ ·) v) :
    ((v.length : ℝ) + 1) * v.sum ≤
      2 * ∑ i in Finset.range v.length, ((i : ℝ) + 1) * v.getD i 0 := by
  set n := v.length with hn
  set f : ℕ → ℝ := fun i => (2 * (i : ℝ) + 1 - (n : ℝ)) * v.getD i 0 with hf
  have hR : ∑ i in Finset.range n, f i =
      2 * (∑ i in Finset.range n, ((i : ℝ) + 1) * v.getD i 0) - ((n : ℝ) + 1) * v.sum := by
    rw [← sum_range_getD v, ← hn, Finset.mul_sum, Finset.mul_sum, ← Finset.sum_sub_distrib]
    refine Finset.sum_congr rfl ?_
    intro i _
    simp only [hf]
    ring
  have hrefl : ∑ i in Finset.range n, f (n - 1 - i) = ∑ i in Finset.range n, f i :=
    Finset.sum_range_reflect f n
  have htwo : 2 * ∑ i in Finset.range n, f i =
      ∑ i in Finset.range n, (f i + f (n - 1 - i)) := by
    rw [Finset.sum_add_distrib, hrefl, two_mul]
  have hterm : ∀ i ∈ Finset.range n, 0 ≤ f i + f (n - 1 - i) := by
    intro i hi
    have hi' : i < n := Finset.mem_range.mp hi
    set j := n - 1 - i with hj
    have hjn : j < n := by omega
    have hij : i + j = n - 1 := by omega
    have hn1 : 1 ≤ n := by omega
    have hcast : (j : ℝ) = (n : ℝ) - 1 - (i : ℝ) := by
      have h1 : ((i + j : ℕ) : ℝ) = ((n - 1 : ℕ) : ℝ) := by rw [hij]
      rw [Nat.cast_sub hn1] at h1
      push_cast at h1
      linarith
    have hcoef : 2 * (j : ℝ) + 1 - (n : ℝ) = -(2 * (i : ℝ) + 1 - (n : ℝ)) := by
      rw [hcast]; ring
    simp only [hf, hcoef]
    rcases le_or_lt (2 * i + 1) n with hle | hlt
    · have hij' : i ≤ j := by omega
      have hvle : v.getD i 0 ≤ v.getD j 0 := sorted_getD_le hs hij' (hn ▸ hjn)
      have hcle : 2 * (i : ℝ) + 1 - (n : ℝ) ≤ 0 := by
        have : ((2 * i + 1 : ℕ) : ℝ) ≤ (n : ℝ) := by exact_mod_cast hle
        push_cast at this
        linarith
      nlinarith
    · have hij' : j ≤ i := by omega
      have hvle : v.getD j 0 ≤ v.getD i 0 := sorted_getD_le hs hij' (hn ▸ hi')
      have hcge : 0 ≤ 2 * (i : ℝ) + 1 - (n : ℝ) := by
        have : (n : ℝ) < ((2 * i + 1 : ℕ) : ℝ) := by exact_mod_cast hlt
        push_cast at this
        linarith
      nlinarith
  have hsumnn : 0 ≤ ∑ i in Finset.range n, (f i + f (n - 1 - i)) :=
    Finset.sum_nonneg hterm
  rw [← htwo] at hsumnn
  rw [hR] at hsumnn
  linarith

/-- Claim C6: for every finite list of non-negative reals, `gini` lands
in `[0,1]`, and it returns exactly `0` whenever the list is empty or its
sum is `≤ 0`. -/
theorem gini_bounds (l : List ℝ) (h : ∀ x ∈ l, 0 ≤ x) :
    (0 ≤ gini l ∧ gini l ≤ 1) ∧ ((l = [] ∨ l.sum ≤ 0) → gini l = 0) := by
  have hzero : (l = [] ∨ l.sum ≤ 0) → gini l = 0 := by
    rintro (rfl | hsum)
    · simp [gini]
    · rcases eq_or_ne l.length 0 with hn | hn
      · simp [gini, hn]
      · have hvsum : (List.insertionSort (· ≤ ·) l).sum = l.sum :=
          (List.perm_insertionSort (· ≤ ·) l).sum_eq
        simp only [gini]
        rw [if_neg hn, hvsum, if_pos hsum]
  refine ⟨?_, hzero⟩
  rcases eq_or_ne l.length 0 with hn | hn
  · have : l = [] := List.length_eq_zero.mp hn
    rw [hzero (Or.inl this)]
    norm_num
  · rcases le_or_lt l.sum 0 with hsum | hsum
    · rw [hzero (Or.inr hsum)]
      norm_num
    · simp only [gini]
      set v := List.insertionSort (· ≤ ·) l with hv
      have hvsum : v.sum = l.sum := (List.perm_insertionSort (· ≤ ·) l).sum_eq
      have hvlen : v.length = l.length := (List.perm_insertionSort (· ≤ ·) l).length_eq
      have hvnn : ∀ x ∈ v, 0 ≤ x := by
        intro x hx
        exact h x ((List.mem_insertionSort (· ≤ ·)).mp hx)
      have hvsorted : List.Sorted (· ≤ ·) v := List.sorted_insertionSort (· ≤ ·) l
      have hnot : ¬ v.sum ≤ 0 := by rw [hvsum]; exact not_le.mpr hsum
      have hcumle := cum_le_n_mul_sum v hvnn
      have hcumge := succ_mul_sum_le_two_cum v hvsorted
      rw [hvsum, hvlen] at hcumle hcumge
      rw [if_neg hn, if_neg hnot, hvsum]
      set n := l.length with hnl
      set cum := ∑ i in Finset.range n, ((i : ℝ) + 1) * v.getD i 0 with hcum
      have hnpos : (0 : ℝ) < (n : ℝ) := by
        have : 0 < n := Nat.pos_of_ne_zero hn
        exact_mod_cast this
      have hnS : (0 : ℝ) < (n : ℝ) * l.sum := mul_pos hnpos hsum
      constructor
      · have hlow : ((n : ℝ) + 1) / (n : ℝ) ≤ 2 * cum / ((n : ℝ) * l.sum) := by
          rw [div_le_div_iff hnpos hnS]
          nlinarith
        linarith
      · have hup : 2 * cum / ((n : ℝ) * l.sum) ≤ 2 := by
          rw [div_le_iff hnS]
          nlinarith
        have h1n : 1 ≤ ((n : ℝ) + 1) / (n : ℝ) := by
          rw [le_div_iff hnpos]
          linarith
        linarith

/-- Witness for C6 at the list `[3, 1]`. -/
theorem gini_bounds_witness :
    (0 ≤ gini [(3 : ℝ), 1] ∧ gini [(3 : ℝ), 1] ≤ 1) ∧
      (([(3 : ℝ), 1] = [] ∨ [(3 : ℝ), 1].sum ≤ 0) → gini [(3 : ℝ), 1] = 0) :=
  gini_bounds [(3 : ℝ), 1] (by norm_num)

theorem sub_le_mul_log (a b : ℝ) (ha : 0 < a) (hb : 0 < b) :
    a - b ≤ a * Real.log (a / b) := by
  have h := Real.log_le_sub_one_of_pos (x := b / a) (by positivity)
  have hlog : Real.log (a / b) = -Real.log (b / a) := by
    rw [← Real.log_inv]
    congr 1
    field_simp
  have hmul : a * Real.log (b / a) ≤ a * (b / a - 1) :=
    mul_le_mul_of_nonneg_left h (le_of_lt ha)
  have ha' : a * (b / a - 1) = b - a := by field_simp
  rw [hlog]
  nlinarith

/-- Two-point Gibbs inequality with the source's zero-guards: the guarded
Kullback–Leibler divergence of Bernoulli(q) from Bernoulli(p) is
non-negative, given the consistency facts relating the conditional `q`
to the marginal `p` at the extremes. -/
theorem bernoulli_gibbs (p q : ℝ) (hq0 : 0 ≤ q) (hq1 : q ≤ 1) (hp0 : 0 ≤ p) (hp1 : p ≤ 1)
    (hpz : p = 0 → q = 0) (hpo : p = 1 → q = 1) :
    0 ≤ (if q > 0 ∧ p > 0 then q * Real.log (q / p) else 0) +
        (if 1 - q > 0 ∧ 1 - p > 0 then (1 - q) * Real.log ((1 - q) / (1 - p)) else 0) := by
  rcases eq_or_lt_of_le hp0 with hp0' | hppos
  · have hq : q = 0 := hpz hp0'.symm
    subst hq
    rw [← hp0']
    norm_num
  · rcases eq_or_lt_of_le hp1 with hp1' | hplt
    · have hq : q = 1 := hpo hp1'
      subst hq
      subst hp1'
      norm_num
    · rcases eq_or_lt_of_le hq0 with hq0' | hqpos
      · have hq : q = 0 := hq0'.symm
        subst hq
        have hcond : ¬((0 : ℝ) > 0 ∧ p > 0) := by simp
        rw [if_neg hcond]
        have h1p : (0 : ℝ) < 1 - p := by linarith
        rw [if_pos ⟨by norm_num, h1p⟩]
        simp only [sub_zero]
        have hge : (1 : ℝ) ≤ 1 / (1 - p) := one_le_one_div h1p (by linarith)
        have := Real.log_nonneg hge
        simpa using this
      · rcases eq_or_lt_of_le hq1 with hq1' | hqlt
        · subst hq1'
          have hcond : ¬((1 : ℝ) - 1 > 0 ∧ 1 - p > 0) := by norm_num
          rw [if_neg hcond, if_pos ⟨by norm_num, hppos⟩]
          have hge : (1 : ℝ) ≤ 1 / p := one_le_one_div hppos hp1
          have h' := Real.log_nonneg hge
          simpa using h'
        · rw [if_pos ⟨hqpos, hppos⟩, if_pos ⟨by linarith, by linarith⟩]
          have h1 := sub_le_mul_log q p hqpos hppos
          have h2 := sub_le_mul_log (1 - q) (1 - p) (by linarith) (by linarith)
          linarith

theorem countR1_le_countN (pairs : List (Nat × ℝ)) (b : Nat) :
    countR1 pairs b ≤ countN pairs b := by
  unfold countR1 countN
  have heq : pairs.filter (fun q => decide (q.1 = b ∧ q.2 ≠ 0)) =
      (pairs.filter (fun q => decide (q.1 = b))).filter (fun q => decide (q.2 ≠ 0)) := by
    rw [List.filter_filter]
    congr 1
    funext q
    simp [Bool.and_comm]
  rw [heq]
  exact (List.filter_sublist _).length_le

theorem mem_binPairs_snd {effort rewarded : List ℝ} {bins : Nat} {q : Nat × ℝ}
    (hq : q ∈ binPairs effort rewarded bins) : q.2 ∈ rewarded := by
  obtain ⟨pr, hpr, rfl⟩ := List.mem_map.mp hq
  exact (List.of_mem_zip hpr).2

theorem countR1_eq_zero_of_all_zero {effort rewarded : List ℝ} {bins b : Nat}
    (hall : ∀ x ∈ rewarded, x = 0) :
    countR1 (binPairs effort rewarded bins) b = 0 := by
  unfold countR1
  rw [List.length_eq_zero]
  rw [List.filter_eq_nil]
  intro q hq
  have := hall q.2 (mem_binPairs_snd hq)
  simp [this]

theorem countR1_eq_countN_of_all_ne {effort rewarded : List ℝ} {bins b : Nat}
    (hall : ∀ x ∈ rewarded, x ≠ 0) :
    countR1 (binPairs effort rewarded bins) b = countN (binPairs effort rewarded bins) b := by
  unfold countR1 countN
  congr 1
  apply List.filter_congr
  intro q hq
  have := hall q.2 (mem_binPairs_snd hq)
  simp [this]

/-- Claim C10: for efforts and same-length rewarded flags in `{0,1}` and
`bins ≥ 1`, the binned mutual information is non-negative (each populated
bin contributes `p(bin)` times a guarded Kullback–Leibler divergence,
which is non-negative), and the empty-input case returns `0`. -/
theorem mutualInformation_nonneg (effort rewarded : List ℝ) (bins : Nat)
    (hlen : rewarded.length = effort.length)
    (h01 : ∀ x ∈ rewarded, x = 0 ∨ x = 1) (hbins : 1 ≤ bins) :
    0 ≤ mutualInformationBinned effort rewarded bins ∧
      mutualInformationBinned [] [] bins = 0 := by
  constructor
  · simp only [mutualInformationBinned]
    rcases eq_or_ne effort.length 0 with hn | hn
    · simp [hn]
    · rw [if_neg hn]
      have hnpos : (0 : ℝ) < (effort.length : ℝ) := by
        exact_mod_cast Nat.pos_of_ne_zero hn
      apply div_nonneg _ (Real.log_nonneg (by norm_num))
      apply Finset.sum_nonneg
      intro b _
      rcases eq_or_ne (countN (binPairs effort rewarded bins) b) 0 with hnb | hnb
      · simp [hnb]
      · rw [if_neg hnb]
        set pairs := binPairs effort rewarded bins with hpairs
        set nb := countN pairs b with hnbdef
        set cnt := (rewarded.filter (fun x => decide (x ≠ 0))).length with hcnt
        have hnbpos : (0 : ℝ) < (nb : ℝ) := by
          exact_mod_cast Nat.pos_of_ne_zero hnb
        set p := (cnt : ℝ) / (effort.length : ℝ) with hp
        set q := ((countR1 pairs b : ℝ)) / (nb : ℝ) with hq
        have hq0 : 0 ≤ q := by positivity
        have hq1 : q ≤ 1 := by
          rw [hq, div_le_one hnbpos]
          exact_mod_cast countR1_le_countN pairs b
        have hp0 : 0 ≤ p := by positivity
        have hp1 : p ≤ 1 := by
          rw [hp, div_le_one hnpos]
          have h1 : cnt ≤ rewarded.length := by
            rw [hcnt]
            exact List.length_filter_le _ _
          rw [hlen] at h1
          exact_mod_cast h1
        have hpz : p = 0 → q = 0 := by
          intro hp'
          have hcnt0 : cnt = 0 := by
            have hreal : (cnt : ℝ) = 0 := by
              by_contra hne
              have : (0 : ℝ) < (cnt : ℝ) :=
                lt_of_le_of_ne (by positivity) (Ne.symm hne)
              have : 0 < p := by rw [hp]; positivity
              linarith [le_of_eq hp'.symm]
            exact_mod_cast hreal
          have hall : ∀ x ∈ rewarded, x = 0 := by
            have hfe : rewarded.filter (fun x => decide (x ≠ 0)) = [] := by
              rw [← List.length_eq_zero, ← hcnt]
              exact hcnt0
            intro x hx
            by_contra hxne
            have hmem : x ∈ rewarded.filter (fun x => decide (x ≠ 0)) :=
              List.mem_filter.mpr ⟨hx, by simpa using hxne⟩
            rw [hfe] at hmem
            simp at hmem
          have hr0 : countR1 pairs b = 0 := countR1_eq_zero_of_all_zero hall
          rw [hq, hr0]
          simp
        have hpo : p = 1 → q = 1 := by
          intro hp'
          have hcntn : cnt = rewarded.length := by
            have hreal : (cnt : ℝ) = (effort.length : ℝ) := by
              rw [hp] at hp'
              field_simp at hp'
              exact_mod_cast hp'
            rw [hlen]
            exact_mod_cast hreal
          have hall : ∀ x ∈ rewarded, x ≠ 0 := by
            have := List.filter_length_eq_length.mp (by rw [← hcnt]; exact hcntn)
            intro x hx
            simpa using this x hx
          have hrn : countR1 pairs b = nb := by
            rw [hnbdef, hpairs]
            exact countR1_eq_countN_of_all_ne hall
          rw [hq, hrn]
          field_simp
        have hgibbs := bernoulli_gibbs p q hq0 hq1 hp0 hp1 hpz hpo
        have hfactor :
            (if q > 0 ∧ p > 0 then ((nb : ℝ) / (effort.length : ℝ)) * q * Real.log (q / p) else 0) +
              (if 1 - q > 0 ∧ 1 - p > 0 then
                ((nb : ℝ) / (effort.length : ℝ)) * (1 - q) * Real.log ((1 - q) / (1 - p)) else 0) =
              ((nb : ℝ) / (effort.length : ℝ)) *
                ((if q > 0 ∧ p > 0 then q * Real.log (q / p) else 0) +
                  (if 1 - q > 0 ∧ 1 - p > 0 then (1 - q) * Real.log ((1 - q) / (1 - p)) else 0)) := by
          split_ifs <;> ring
        have hpV : (0 : ℝ) ≤ (nb : ℝ) / (effort.length : ℝ) := by positivity
        calc (0 : ℝ) ≤ ((nb : ℝ) / (effort.length : ℝ)) *
                ((if q > 0 ∧ p > 0 then q * Real.log (q / p) else 0) +
                  (if 1 - q > 0 ∧ 1 - p > 0 then (1 - q) * Real.log ((1 - q) / (1 - p)) else 0)) :=
              mul_nonneg hpV hgibbs
          _ = _ := hfactor.symm
  · simp [mutualInformationBinned]

/-- Witness for C10 at effort `[1/2]`, rewarded `[1]`, one bin. -/
theorem mutualInformation_nonneg_witness :
    0 ≤ mutualInformationBinned [(1 / 2 : ℝ)] [(1 : ℝ)] 1 ∧
      mutualInformationBinned [] [] 1 = 0 :=
  mutualInformation_nonneg [(1 / 2 : ℝ)] [(1 : ℝ)] 1 (by simp)
    (by intro x hx; right; simpa using hx) (by norm_num)

/-- Counterexample for C3 as stated: the tax-curve generator does not hold
the given horizon `T` fixed — it caps it at `300` (`curveT = min(T, 300)`,
source line 381).  At `T = 301` the simulation at rate point `0` runs with
horizon `300`, not `301`. -/
theorem taxCurve_horizon_counterexample :
    (curveParams 1 0 0 301 TaxKind.income 1 10 0).T ≠ 301 ∧
      (curveParams 1 0 0 301 TaxKind.income 1 10 0).T = 300 := by
  constructor <;> simp [curveParams]

/-- Amended Claim C3: for `steps ≥ 1`, `generateTaxRevenueCurve` runs
exactly one simulation per rate point `i·maxRate/steps` for
`i = 0..steps` (`steps + 1` points, `maxRate` inclusive), holding every
other simulation parameter fixed across points — with horizon
`min(T, 300)` rather than the given `T` — and varying only the selected
tax rate; the rate-0 point's concentration value equals the terminal
reward-count concentration index of the zero-tax `simulate` call with
those same (capped-horizon) parameters. -/
theorem taxCurve_points (alpha lambda churn : ℝ) (T : Nat) (taxType : TaxKind)
    (maxRate : ℝ) (steps : Nat) (hsteps : 1 ≤ steps) :
    (generateTaxRevenueCurve alpha lambda churn T taxType maxRate steps).length = steps + 1 ∧
      (∀ i, i ≤ steps →
        (generateTaxRevenueCurve alpha lambda churn T taxType maxRate steps).getD i default =
          taxPointOf (simulate (curveParams alpha lambda churn T taxType maxRate steps i))
            ((i : ℝ) * (maxRate / (steps : ℝ)))) ∧
      (∀ i, (curveParams alpha lambda churn T taxType maxRate steps i).T = min T 300 ∧
        (curveParams alpha lambda churn T taxType maxRate steps i).alpha = alpha ∧
        (curveParams alpha lambda churn T taxType maxRate steps i).lambda = lambda ∧
        (curveParams alpha lambda churn T taxType maxRate steps i).churn = churn ∧
        (curveParams alpha lambda churn T taxType maxRate steps i).A0 = 1 ∧
        (curveParams alpha lambda churn T taxType maxRate steps i).bins = 10 ∧
        (curveParams alpha lambda churn T taxType maxRate steps i).seed = 42 ∧
        (taxType = TaxKind.income →
          (curveParams alpha lambda churn T taxType maxRate steps i).incomeTaxRate =
              (i : ℝ) * (maxRate / (steps : ℝ)) ∧
            (curveParams alpha lambda churn T taxType maxRate steps i).wealthTaxRate = 0) ∧
        (taxType = TaxKind.wealth →
          (curveParams alpha lambda churn T taxType maxRate steps i).wealthTaxRate =
              (i : ℝ) * (maxRate / (steps : ℝ)) ∧
            (curveParams alpha lambda churn T taxType maxRate steps i).incomeTaxRate = 0)) ∧
      curveParams alpha lambda churn T taxType maxRate steps 0 =
        { T := min T 300, alpha := alpha, lambda := lambda, churn := churn, A0 := 1,
          bins := 10, seed := 42, incomeTaxRate := 0, wealthTaxRate := 0 } ∧
      ((generateTaxRevenueCurve alpha lambda churn T taxType maxRate steps).getD 0
          default).postTaxGini =
        ((simulate
            { T := min T 300, alpha := alpha, lambda := lambda, churn := churn,
              A0 := 1, bins := 10, seed := 42, incomeTaxRate := 0,
              wealthTaxRate := 0 }).series.getLastD default).Gini := by
  have hpoint : ∀ i, i ≤ steps →
      (generateTaxRevenueCurve alpha lambda churn T taxType maxRate steps).getD i default =
        taxPointOf (simulate (curveParams alpha lambda churn T taxType maxRate steps i))
          ((i : ℝ) * (maxRate / (steps : ℝ))) := by
    intro i hi
    have hi' : i < steps + 1 := by omega
    unfold generateTaxRevenueCurve
    rw [List.getD_eq_getElem _ _ (by simpa using hi')]
    simp
  have hzero : curveParams alpha lambda churn T taxType maxRate steps 0 =
      { T := min T 300, alpha := alpha, lambda := lambda, churn := churn, A0 := 1,
        bins := 10, seed := 42, incomeTaxRate := 0, wealthTaxRate := 0 } := by
    cases taxType <;> norm_num [curveParams]
  refine ⟨by simp [generateTaxRevenueCurve], hpoint, ?_, hzero, ?_⟩
  · intro i
    cases taxType <;> norm_num [curveParams] <;>
      exact fun h => TaxKind.noConfusion h
  · rw [hpoint 0 (by omega), hzero]
    simp [taxPointOf]

/-- Witness for the amended C3 at
`alpha = 1, lambda = 0, churn = 0, T = 1, income, maxRate = 1, steps = 1`. -/
theorem taxCurve_points_witness :
    (generateTaxRevenueCurve 1 0 0 1 TaxKind.income 1 1).length = 1 + 1 ∧
      (∀ i, i ≤ 1 →
        (generateTaxRevenueCurve 1 0 0 1 TaxKind.income 1 1).getD i default =
          taxPointOf (simulate (curveParams 1 0 0 1 TaxKind.income 1 1 i))
            ((i : ℝ) * (1 / ((1 : Nat) : ℝ)))) ∧
      (∀ i, (curveParams 1 0 0 1 TaxKind.income 1 1 i).T = min 1 300 ∧
        (curveParams 1 0 0 1 TaxKind.income 1 1 i).alpha = 1 ∧
        (curveParams 1 0 0 1 TaxKind.income 1 1 i).lambda = 0 ∧
        (curveParams 1 0 0 1 TaxKind.income 1 1 i).churn = 0 ∧
        (curveParams 1 0 0 1 TaxKind.income 1 1 i).A0 = 1 ∧
        (curveParams 1 0 0 1 TaxKind.income 1 1 i).bins = 10 ∧
        (curveParams 1 0 0 1 TaxKind.income 1 1 i).seed = 42 ∧
        (TaxKind.income = TaxKind.income →
          (curveParams 1 0 0 1 TaxKind.income 1 1 i).incomeTaxRate =
              (i : ℝ) * (1 / ((1 : Nat) : ℝ)) ∧
            (curveParams 1 0 0 1 TaxKind.income 1 1 i).wealthTaxRate = 0) ∧
        (TaxKind.income = TaxKind.wealth →
          (curveParams 1 0 0 1 TaxKind.income 1 1 i).wealthTaxRate =
              (i : ℝ) * (1 / ((1 : Nat) : ℝ)) ∧
            (curveParams 1 0 0 1 TaxKind.income 1 1 i).incomeTaxRate = 0)) ∧
      curveParams 1 0 0 1 TaxKind.income 1 1 0 =
        { T := min 1 300, alpha := 1, lambda := 0, churn := 0, A0 := 1,
          bins := 10, seed := 42, incomeTaxRate := 0, wealthTaxRate := 0 } ∧
      ((generateTaxRevenueCurve 1 0 0 1 TaxKind.income 1 1).getD 0
          default).postTaxGini =
        ((simulate
            { T := min 1 300, alpha := 1, lambda := 0, churn := 0,
              A0 := 1, bins := 10, seed := 42, incomeTaxRate := 0,
              wealthTaxRate := 0 }).series.getLastD default).Gini :=
  taxCurve_points 1 0 0 1 TaxKind.income 1 1 (by norm_num)

theorem softmaxPick_singleton (w : ℝ) (s : Nat) : (softmaxPick [w] s).1 = 0 := by
  unfold softmaxPick
  simp only [List.sum_cons, List.sum_nil, add_zero]
  by_cases h : w ≤ 0
  · simp [h]
  · rw [if_neg h]
    show pickFrom [w] _ 0 1 = 0
    unfold pickFrom
    split
    · rfl
    · unfold pickFrom
      rfl

theorem gini_singleton (x : ℝ) : gini [x] = 0 := by
  by_cases hx : x ≤ 0
  · simp [gini, hx]
  · have hxne : x ≠ 0 := by intro h; exact hx (le_of_eq h)
    simp only [gini, List.length_cons, List.length_nil, List.insertionSort,
      List.orderedInsert, List.sum_cons, List.sum_nil]
    norm_num [hx, Finset.sum_range_one]
    field_simp

theorem mi_single_rewarded (v : ℝ) (bins : Nat) :
    mutualInformationBinned [v] [(1 : ℝ)] bins = 0 := by
  simp only [mutualInformationBinned, binPairs, List.zip_cons_cons, List.zip_nil_right,
    List.map_cons, List.map_nil, List.length_cons, List.length_nil]
  norm_num
  apply Finset.sum_eq_zero
  intro b _
  rcases eq_or_ne (countN [(binOf v bins, (1 : ℝ))] b) 0 with h | h
  · simp [h]
  · have hb : binOf v bins = b := by
      by_contra hbb
      apply h
      simp [countN, List.filter, hbb]
    have h1 : countN [(binOf v bins, (1 : ℝ))] b = 1 := by
      simp [countN, List.filter, hb]
    have h2 : countR1 [(binOf v bins, (1 : ℝ))] b = 1 := by
      simp [countR1, List.filter, hb]
    rw [if_neg h, h1, h2]
    norm_num [Real.log_one]

/-- Claim C7: `simulate({T:1, alpha:1, lambda:0, churn:0, seed:7})` (all
other parameters at their defaults) produces exactly one agent, reward
counts `[1]`, a step-1 concentration index of `0` and a step-1 mutual
information of `0`. -/
theorem scenario_single_agent :
    (stateAfter { T := 1, alpha := 1, lambda := 0, churn := 0, seed := 7 } 1).effort.length
        = 1 ∧
      (stateAfter { T := 1, alpha := 1, lambda := 0, churn := 0, seed := 7 } 1).rewardCount
        = [1] ∧
      (simulate
          { T := 1, alpha := 1, lambda := 0, churn := 0,
            seed := 7 }).series.map (fun r => r.Gini) = [0] ∧
      (simulate
          { T := 1, alpha := 1, lambda := 0, churn := 0,
            seed := 7 }).series.map (fun r => r.MI_bits) = [0] := by
  have hrc : (stateAfter { T := 1, alpha := 1, lambda := 0, churn := 0, seed := 7 }
      1).rewardCount = [1] := by
    show (stepSim _ (initState 7)).rewardCount = [1]
    simp only [stepSim, initState]
    norm_num [churnPhase, wealthTaxPhase, softmaxPick_singleton, incAt]
  refine ⟨?_, hrc, ?_, ?_⟩
  · show (stepSim _ (initState 7)).effort.length = 1
    simp [stepSim, initState]
  · show ((simLoop _ 1 (initState 7)).series).map (fun r => r.Gini) = [0]
    show ((stepSim _ (initState 7)).series).map (fun r => r.Gini) = [0]
    simp only [stepSim, initState]
    norm_num [churnPhase, wealthTaxPhase, softmaxPick_singleton, incAt, gini_singleton]
  · show ((simLoop _ 1 (initState 7)).series).map (fun r => r.MI_bits) = [0]
    show ((stepSim _ (initState 7)).series).map (fun r => r.MI_bits) = [0]
    simp only [stepSim, initState]
    norm_num [churnPhase, wealthTaxPhase, softmaxPick_singleton, setAt, mi_single_rewarded]

/-- Counterexample for C4 as stated: the claim constrains only `churn`
and the two tax rates, but with a negative initial attachment
`A0 = -5` (permitted by those constraints, though ruled out by the
spec's §4.2 precondition `initialAttachment > 0`) the single agent's
attachment after step 1 is `-5 + 1 = -4 < 0`. -/
theorem nonneg_counterexample :
    ¬ (∀ a ∈ (stateAfter
        { T := 1, alpha := 1, lambda := 0, churn := 0, A0 := -5,
          seed := 7 } 1).A, (0 : ℝ) ≤ a) := by
  have hA : (stateAfter
      { T := 1, alpha := 1, lambda := 0, churn := 0, A0 := -5,
        seed := 7 } 1).A = [-4] := by
    show (stepSim _ (initState 7)).A = [-4]
    simp only [stepSim, initState]
    norm_num [churnPhase, wealthTaxPhase, softmaxPick_singleton, addAt]
  rw [hA]
  intro h
  have := h (-4) (by simp)
  linarith

end ShadowFutures
